import Mathlib

/-!
Verification development for the hierarchical memory-pool and arbitration
subsystem (manager, pool tree, pluggable arbitrator, pluggable reclaimer).

The repository ships the test suite
`velox/common/memory/tests/MemoryManagerTest.cpp` for this subsystem; the
implementation itself (`MemoryManager`, `MemoryPoolImpl`, the arbitrators,
`SysMemoryReclaimer`) is not part of the sources, so the definitions below
are shallow models written from the specification, with every concrete
constant and observable behavior pinned to what the test file asserts.
-/

namespace Velox

/-- Minimum allocator alignment (`MemoryAllocator::kMinAlignment`), observed
in `MemoryManagerTest.alignmentOptionCheck` and `ctor` (alignment 0 yields 16,
default yields 64). -/
def kMinAlignment : Nat := 16

/-- Maximum allocator alignment (`MemoryAllocator::kMaxAlignment`); the
default manager alignment per `MemoryManagerTest.ctor` (64B in toString). -/
def kMaxAlignment : Nat := 64

/-- The unlimited capacity sentinel `kMaxMemory` (max int64). -/
def kMaxMemory : Nat := 2 ^ 63 - 1

/-- Machine page size used to size page-based allocations. -/
def kPageSize : Nat := 4096

/-- Modelled from the spec: the fixed count of system pools included in
`numPools()`. The tests pin it: a fresh manager with no user pools reports
`numPools() == 3` (`MemoryManagerTest.ctor`), and every user root or leaf
pool adds exactly one (`memoryPoolManagement`, `defaultMemoryManager`). -/
def kSystemPoolCount : Nat := 3

/-- Default initial capacity slice granted by the shared arbitrator to a
newly added root pool when no extra config overrides it. -/
def kDefaultInitialPoolCapacity : Nat := 256 * 1024 * 1024

/-- Power-of-two test on Nat, via the usual bit trick. -/
def isPow2 (n : Nat) : Bool := n != 0 && (n &&& (n - 1)) == 0

/-- Arbitrator kind: the built-in Noop arbitrator (empty kind string) and the
registered Shared arbitrator. -/
inductive ArbKind where
  | noop
  | shared
  deriving DecidableEq, Repr

/-- Errors surfaced synchronously by the modelled subsystem. The two
capacity flavors are distinguishable, matching the messages
"Exceeded memory pool capacity" and "Exceeded memory allocator limit"
asserted in `MemoryManagerTest.disableMemoryPoolTracking`. -/
inductive MemErr where
  | poolCapacityExceeded
  | allocatorCapacityExceeded
  | duplicatePoolName
  | duplicateArbPool
  | invalidAlignment
  | notImplemented
  | alreadySet
  deriving DecidableEq, Repr

/-- Modelled from the spec: `MemoryManager::Options` — construction-time
configuration (allocator capacity, arbitrator capacity, arbitrator kind,
alignment, disable-pool-tracking flag, shared-arbitrator initial pool
capacity). Defaults match the test expectations for `MemoryManager{}`. -/
structure MgrOptions where
  alignment : Nat := kMaxAlignment
  allocatorCapacity : Nat := kMaxMemory
  arbitratorCapacity : Nat := kMaxMemory
  arbitratorKind : ArbKind := ArbKind.noop
  disableMemoryPoolTracking : Bool := false
  memoryPoolInitialCapacity : Nat := kDefaultInitialPoolCapacity
  deriving DecidableEq, Repr

/-- The alignment actually adopted by the manager: the configured value
clamped up to the minimum (`max a kMinAlignment`). -/
def effectiveAlignment (a : Nat) : Nat := max a kMinAlignment

/-- Modelled from the spec: the manager construction-time alignment check as
the missing `MemoryManager` constructor performs it, pinned by
`MemoryManagerTest.alignmentOptionCheck`: the configured value is first
clamped up to `kMinAlignment`, and construction succeeds iff the clamped
value is a power of two not exceeding `kMaxAlignment` (so 0 and 15 succeed,
17, 63, 65 and 128 fail). -/
def codeValidAlignment (a : Nat) : Bool :=
  isPow2 (effectiveAlignment a) && decide (effectiveAlignment a ≤ kMaxAlignment)

/-- The alignment validity rule exactly as the spec words it (section 3):
"Alignment is 0 (meaning use minimum) or a power of two in
[minAlign, maxAlign]; any other value fails construction." Stated here only
to be compared with `codeValidAlignment`. -/
def specValidAlignment (a : Nat) : Bool :=
  a == 0 || (isPow2 a && decide (kMinAlignment ≤ a) && decide (a ≤ kMaxAlignment))

/-- Modelled from the spec: the data of a live pool as recorded by the
missing `MemoryPool` implementation — name, kind (root aggregate vs leaf),
granted capacity, max capacity, alignment — plus a model-side identity used
to track distinct live handles. -/
structure PoolInfo where
  id : Nat
  name : String
  isRoot : Bool
  capacity : Nat
  maxCapacity : Nat
  alignment : Nat
  deriving DecidableEq, Repr

/-- Modelled from the spec: the mutable state of the missing `MemoryManager`
— adopted alignment, the allocator capacity, the arbitrator (kind, capacity,
remaining free capacity, its own pool-name registry), the registry of live
user-created pools, and counters of arbitrator growth/reclaim invocations. -/
structure ManagerState where
  alignment : Nat
  allocatorCapacity : Nat
  arbKind : ArbKind
  arbCapacity : Nat
  arbFree : Nat
  initialPoolCapacity : Nat
  disableTracking : Bool
  userPools : List PoolInfo
  arbNames : List String
  nextId : Nat
  growCalls : Nat
  reclaimCalls : Nat
  deriving DecidableEq, Repr

/-- Modelled from the spec: `MemoryManager` construction. Validates the
alignment option, creates the allocator with the configured capacity, and
creates the arbitrator whose capacity is overridden to the allocator
capacity (test `createWithCustomArbitrator`: "The arbitrator capacity will
be overridden by the memory manager's capacity"). -/
def mkManager (o : MgrOptions) : Except MemErr ManagerState :=
  if codeValidAlignment o.alignment then
    .ok
      { alignment := effectiveAlignment o.alignment
        allocatorCapacity := o.allocatorCapacity
        arbKind := o.arbitratorKind
        arbCapacity := o.allocatorCapacity
        arbFree := o.allocatorCapacity
        initialPoolCapacity := o.memoryPoolInitialCapacity
        disableTracking := o.disableMemoryPoolTracking
        userPools := []
        arbNames := []
        nextId := 0
        growCalls := 0
        reclaimCalls := 0 }
  else .error .invalidAlignment

/-- Names of the currently live user root pools. -/
def rootNames (s : ManagerState) : List String :=
  (s.userPools.filter (fun p => p.isRoot)).map (fun p => p.name)

/-- Names of the currently live user leaf pools (children of the system
root). -/
def leafNames (s : ManagerState) : List String :=
  (s.userPools.filter (fun p => !p.isRoot)).map (fun p => p.name)

/-- Modelled from the spec: `MemoryManager::numPools()` over the manager
registry of tracked pools. Pinned by the tests: the fixed system pools
count for 3, each manager-tracked live user pool (root or leaf) counts for
one, and root pools created with disable-pool-tracking set are not in the
registry and not counted (`disableMemoryPoolTracking`: numPools() == 3
with three untracked roots live). -/
def numPools (s : ManagerState) : Nat :=
  s.userPools.length + kSystemPoolCount

/-- The number of live root pools, including the permanent system root:
what the spec claims `numPools()` equals. -/
def liveRootPoolCount (s : ManagerState) : Nat :=
  (s.userPools.filter (fun p => p.isRoot)).length + 1

/-- Modelled from the spec: the initial capacity the shared arbitrator
grants a newly added root pool — the configured initial slice, clamped by
the pool max capacity (invariant capacity ≤ maxCapacity) and by the
arbitrator free capacity (invariant: sum of root capacities ≤ total). -/
def sharedGrant (maxCap init free : Nat) : Nat :=
  min maxCap (min init free)

/-- Modelled from the spec: `MemoryManager::addRootPool`. When pool
tracking is enabled the manager rejects a duplicate live root name and
registers the new root in its registry; with disable-pool-tracking set the
manager skips both the duplicate check and the registration, so untracked
roots never enter the registry counted by `numPools()` (pinned by
`disableMemoryPoolTracking`: three live untracked roots and
numPools() == 3). The arbitrator is then asked to admit the pool — Noop
grants maxCapacity unconditionally and keeps no registry, Shared keeps its
own name registry (rejecting duplicates independently, message "Memory pool
root_0 already exists") and grants the initial slice. -/
def addRootPool (s : ManagerState) (name : String) (maxCap : Nat) :
    Except MemErr (PoolInfo × ManagerState) :=
  if !s.disableTracking && (rootNames s).contains name then
    .error .duplicatePoolName
  else
    match s.arbKind with
    | .noop =>
      let p : PoolInfo :=
        { id := s.nextId, name := name, isRoot := true,
          capacity := maxCap, maxCapacity := maxCap, alignment := s.alignment }
      .ok (p,
        { s with
          userPools := if s.disableTracking then s.userPools else p :: s.userPools,
          nextId := s.nextId + 1 })
    | .shared =>
      if s.arbNames.contains name then
        .error .duplicateArbPool
      else
        let grant := sharedGrant maxCap s.initialPoolCapacity s.arbFree
        let p : PoolInfo :=
          { id := s.nextId, name := name, isRoot := true,
            capacity := grant, maxCapacity := maxCap, alignment := s.alignment }
        .ok (p,
          { s with
            userPools := if s.disableTracking then s.userPools else p :: s.userPools,
            nextId := s.nextId + 1,
            arbFree := s.arbFree - grant, arbNames := name :: s.arbNames })

/-- Modelled from the spec: `MemoryManager::addLeafPool` — a leaf pool
parented under the system root, which does not participate in arbitration,
so the leaf inherits the system root unlimited capacity
(`addPool`/`addPoolWithArbitrator`: leaf pools report capacity and
maxCapacity `kMaxMemory` under both arbitrators). Duplicate child names
under the system root are rejected. -/
def addLeafPool (s : ManagerState) (name : String) :
    Except MemErr (PoolInfo × ManagerState) :=
  if (leafNames s).contains name then
    .error .duplicatePoolName
  else
    let p : PoolInfo :=
      { id := s.nextId, name := name, isRoot := false,
        capacity := kMaxMemory, maxCapacity := kMaxMemory,
        alignment := s.alignment }
    .ok (p, { s with userPools := p :: s.userPools, nextId := s.nextId + 1 })

/-- Modelled from the spec: releasing the last owning reference to a pool —
the destruction notification removes the pool from its parent registry
synchronously; a shared-arbitrated root returns its granted capacity and
its arbitrator registration. -/
def removePool (s : ManagerState) (i : Nat) : ManagerState :=
  match s.userPools.find? (fun p => p.id == i) with
  | none => s
  | some p =>
    { s with
      userPools := s.userPools.eraseP (fun q => q.id == i)
      arbFree :=
        if s.arbKind = .shared ∧ p.isRoot then s.arbFree + p.capacity
        else s.arbFree
      arbNames :=
        if s.arbKind = .shared ∧ p.isRoot then s.arbNames.erase p.name
        else s.arbNames }

/-- Modelled from the spec: `MemoryArbitrator::growCapacity` — the Noop
variant has no dynamic growth and fails with NotImplemented; the Shared
variant records the request and grants at most what its free capacity and
the pool max capacity allow. -/
def growCapacityOp (s : ManagerState) (i : Nat) (bytes : Nat) :
    Except MemErr ManagerState :=
  match s.arbKind with
  | .noop => .error .notImplemented
  | .shared =>
    match s.userPools.find? (fun p => p.id == i) with
    | none => .error .poolCapacityExceeded
    | some p =>
      let granted := min bytes (min (p.maxCapacity - p.capacity) s.arbFree)
      .ok
        { s with
          growCalls := s.growCalls + 1
          arbFree := s.arbFree - granted
          userPools :=
            s.userPools.map (fun q =>
              if q.id == i then { q with capacity := q.capacity + granted }
              else q) }

/-- Modelled from the spec: the counters of a leaf pool as kept by the
missing `MemoryPoolImpl` — granted capacity, maximum capacity, reservation
(bytes checked out against capacity), usage, and peak usage. -/
structure LeafPool where
  capacity : Nat
  maxCapacity : Nat
  reservation : Nat
  usage : Nat
  peak : Nat
  deriving DecidableEq, Repr

/-- Modelled from the spec: the state visible to one leaf pool allocation —
the pool counters, the process-wide allocator (capacity and allocated
bytes), and the arbitration context of the pool owning root (kind and free
arbitrator capacity). -/
structure MemState where
  alignment : Nat
  allocCapacity : Nat
  allocatedBytes : Nat
  arbKind : ArbKind
  arbFree : Nat
  pool : LeafPool
  deriving DecidableEq, Repr

/-- Round a size up to the next multiple of the alignment. -/
def roundUp (n a : Nat) : Nat := ((n + a - 1) / a) * a

/-- Modelled from the spec: the largest capacity the pool can obtain through
arbitration. The Noop arbitrator has no dynamic growth, so the granted
capacity is the ceiling; the Shared arbitrator can grow the pool up to its
max capacity, bounded by the free arbitrator capacity. -/
def growTarget (s : MemState) : Nat :=
  match s.arbKind with
  | .noop => s.pool.capacity
  | .shared => min s.pool.maxCapacity (s.pool.capacity + s.arbFree)

/-- An allocation entry point: `allocate(bytes)`,
`allocateContiguous(pages)` or `allocateNonContiguous(pages)`. -/
inductive Request where
  | bytes (n : Nat)
  | contiguous (pages : Nat)
  | nonContiguous (pages : Nat)
  deriving DecidableEq, Repr

/-- The byte size a request reserves: byte requests are rounded up to the
pool alignment, page requests are sized in machine pages. -/
def requestBytes (s : MemState) : Request → Nat
  | .bytes n => roundUp n s.alignment
  | .contiguous pages => pages * kPageSize
  | .nonContiguous pages => pages * kPageSize

/-- Modelled from the spec: the reservation step of the allocation protocol.
If the request fits the granted capacity it is reserved locally (fast
path); otherwise the owning root asks the arbitrator to grow its capacity,
bounded by `growTarget`; if growth cannot cover the request the step fails
with the pool-level flavor of CapacityExceeded. -/
def reserveStep (s : MemState) (size : Nat) : Except MemErr MemState :=
  if s.pool.reservation + size ≤ s.pool.capacity then
    .ok { s with pool := { s.pool with reservation := s.pool.reservation + size } }
  else if s.pool.reservation + size ≤ growTarget s then
    let newCap := s.pool.reservation + size
    .ok
      { s with
        arbFree := s.arbFree - (newCap - s.pool.capacity)
        pool := { s.pool with capacity := newCap, reservation := newCap } }
  else .error .poolCapacityExceeded

/-- Modelled from the spec: the allocator step — any request exceeding the
process-wide allocator ceiling fails with the allocator-level flavor of
CapacityExceeded and changes no counters. -/
def allocStep (s : MemState) (size : Nat) : Except MemErr MemState :=
  if s.allocatedBytes + size ≤ s.allocCapacity then
    .ok
      { s with
        allocatedBytes := s.allocatedBytes + size
        pool :=
          { s.pool with
            usage := s.pool.usage + size
            peak := max s.pool.peak (s.pool.usage + size) } }
  else .error .allocatorCapacityExceeded

/-- Roll a failed reservation back, restoring the reservation counter. -/
def unreserve (s : MemState) (size : Nat) : MemState :=
  { s with pool := { s.pool with reservation := s.pool.reservation - size } }

deriving instance DecidableEq for Except

/-- The outcome of an allocation entry point: the result and the state the
caller observes afterwards. -/
structure AllocOutcome where
  result : Except MemErr Unit
  state : MemState
  deriving DecidableEq, Repr

/-- Modelled from the spec: the allocation protocol for an already sized
request. Zero-length requests are a no-op; otherwise the pool reserves
(arbitrating if needed) and then allocates from the allocator, rolling the
reservation back if the allocator refuses, so a failure is never a partial
allocation. -/
def performSized (s : MemState) (size : Nat) : AllocOutcome :=
  if size = 0 then { result := .ok (), state := s }
  else
    match reserveStep s size with
    | .error e => { result := .error e, state := s }
    | .ok s1 =>
      match allocStep s1 size with
      | .error e => { result := .error e, state := unreserve s1 size }
      | .ok s2 => { result := .ok (), state := s2 }

/-- Modelled from the spec: a leaf pool allocation entry point
(`allocate` / `allocateContiguous` / `allocateNonContiguous`): the request
is sized (alignment rounding for byte requests, page sizing for page
requests) and put through the allocation protocol. -/
def perform (s : MemState) (req : Request) : AllocOutcome :=
  performSized s (requestBytes s req)

/-- A CapacityExceeded error, in either of its two flavors. -/
def isCapacityExceeded : MemErr → Bool
  | .poolCapacityExceeded => true
  | .allocatorCapacityExceeded => true
  | _ => false

/-- A request of this size exceeds what arbitration can grant: it does not
fit the best capacity growth the arbitrator can provide, or it exceeds the
process-wide allocator ceiling. -/
def exceedsGrant (s : MemState) (size : Nat) : Prop :=
  growTarget s < s.pool.reservation + size ∨
    s.allocCapacity < s.allocatedBytes + size

instance (s : MemState) (size : Nat) : Decidable (exceedsGrant s size) := by
  unfold exceedsGrant; infer_instance

/-- Basic well-formedness of an allocation state: reservation within the
granted capacity, granted capacity within the max capacity, and allocator
accounting within its ceiling. -/
def MemState.wf (s : MemState) : Prop :=
  s.pool.reservation ≤ s.pool.capacity ∧
    s.pool.capacity ≤ s.pool.maxCapacity ∧
    s.allocatedBytes ≤ s.allocCapacity

instance (s : MemState) : Decidable s.wf := by
  unfold MemState.wf; infer_instance

/-- The allocation-view state of a freshly created leaf pool of a manager:
no bytes reserved or allocated yet, allocator and arbitration context taken
from the manager. -/
def leafMemState (s : ManagerState) (p : PoolInfo) : MemState :=
  { alignment := s.alignment
    allocCapacity := s.allocatorCapacity
    allocatedBytes := 0
    arbKind := s.arbKind
    arbFree := s.arbFree
    pool :=
      { capacity := p.capacity, maxCapacity := p.maxCapacity,
        reservation := 0, usage := 0, peak := 0 } }

/-- Modelled from the spec: `SysMemoryReclaimer::reclaimableBytes` — the
built-in system-pool reclaimer always reports the capability as
unsupported (false) with zero bytes out. -/
def sysReclaimableBytes (_pool : LeafPool) : Bool × Nat := (false, 0)

/-- Modelled from the spec: `SysMemoryReclaimer::reclaim` — always reclaims
zero bytes, whatever the target and wait budget. -/
def sysReclaim (_pool : LeafPool) (_targetBytes _maxWaitMs : Nat) : Nat := 0

/-- Modelled from the spec: `SysMemoryReclaimer::abort` — explicitly
refused with the descriptive error asserted in `MemoryManagerTest.ctor`. -/
def sysAbort (_pool : LeafPool) (_cause : String) : Except String Unit :=
  .error "SysMemoryReclaimer::abort is not supported"

/-- Modelled from the spec: `SysMemoryReclaimer::priority`, observed 0. -/
def sysPriority : Nat := 0

/-- Modelled from the spec: the process-wide singleton slot for the memory
manager. Instances are identified by a model-side id; the options each
instance was built with are recorded alongside. -/
structure GlobalSlot where
  inst : Option (Nat × MgrOptions)
  nextId : Nat
  deriving DecidableEq, Repr

/-- Modelled from the spec: `initializeMemoryManager` — transitions an
empty global slot to a live instance exactly once and fails on a second
call, leaving the existing instance in place. -/
def initMemoryManager (g : GlobalSlot) (o : MgrOptions) :
    Except MemErr GlobalSlot :=
  match g.inst with
  | some _ => .error .alreadySet
  | none => .ok { inst := some (g.nextId, o), nextId := g.nextId + 1 }

/-- Modelled from the spec: the `memoryManager()` accessor — returns the
current instance, or an empty result before any instance exists. -/
def memoryManagerAcc (g : GlobalSlot) : Option Nat :=
  g.inst.map (fun x => x.1)

/-- Modelled from the spec: `MemoryManager::testingSetInstance` — the
test-only entry point that unconditionally replaces the instance. -/
def testingSetInstance (g : GlobalSlot) (o : MgrOptions) : GlobalSlot :=
  { inst := some (g.nextId, o), nextId := g.nextId + 1 }

/-- Modelled from the spec: `deprecatedDefaultMemoryManager` — the lazy
legacy accessor that creates a default-configured instance on first use and
returns the current instance on every later call. -/
def lazyDefaultManager (g : GlobalSlot) : Nat × GlobalSlot :=
  match g.inst with
  | some (i, _) => (i, g)
  | none => (g.nextId, { inst := some (g.nextId, {}), nextId := g.nextId + 1 })

/-- Well-formedness of the global slot: a live instance id is below the
fresh-id counter. -/
def GlobalSlot.wf (g : GlobalSlot) : Prop :=
  ∀ i o, g.inst = some (i, o) → i < g.nextId

/-- A placeholder manager state used only as a fallback when destructing an
`Except` that is known to be `ok`. -/
def emptyManagerState : ManagerState :=
  { alignment := kMaxAlignment, allocatorCapacity := 0, arbKind := .noop,
    arbCapacity := 0, arbFree := 0, initialPoolCapacity := 0,
    disableTracking := false, userPools := [], arbNames := [], nextId := 0,
    growCalls := 0, reclaimCalls := 0 }

/-- A placeholder pool used only as a fallback when destructing an `Except`
that is known to be `ok`. -/
def fallbackPool : PoolInfo :=
  { id := 0, name := "", isRoot := true, capacity := 0, maxCapacity := 0,
    alignment := 0 }

/-- Manager construction on options known to be valid. -/
def mkManagerD (o : MgrOptions) : ManagerState :=
  match mkManager o with
  | .ok s => s
  | .error _ => emptyManagerState

/-- The pool and manager state produced by an `addRootPool` call known to
succeed. -/
def addRootPair (s : ManagerState) (name : String) (maxCap : Nat) :
    PoolInfo × ManagerState :=
  match addRootPool s name maxCap with
  | .ok x => x
  | .error _ => (fallbackPool, s)

/-- The manager state after an `addRootPool` call known to succeed. -/
def addRootD (s : ManagerState) (name : String) (maxCap : Nat) : ManagerState :=
  (addRootPair s name maxCap).2

/-- Whether an `Except` result is a success. -/
def exceptOk {α : Type} : Except MemErr α → Bool
  | .ok _ => true
  | .error _ => false

/-- A fresh manager with every option at its default (Noop arbitrator,
unlimited capacity, pool tracking enabled). -/
def mgrDefault : ManagerState := mkManagerD {}

/-- The manager of test `disableMemoryPoolTracking`, Noop iteration:
tracking disabled, 64 MiB allocator and arbitrator capacity. -/
def mgrNoTrackNoop : ManagerState :=
  mkManagerD
    { disableMemoryPoolTracking := true, allocatorCapacity := 64 * 2 ^ 20,
      arbitratorCapacity := 64 * 2 ^ 20 }

/-- The manager of test `disableMemoryPoolTracking`, Shared iteration:
tracking disabled, shared arbitrator, 64 MiB capacity. -/
def mgrNoTrackShared : ManagerState :=
  mkManagerD
    { disableMemoryPoolTracking := true, arbitratorKind := .shared,
      allocatorCapacity := 64 * 2 ^ 20, arbitratorCapacity := 64 * 2 ^ 20 }

/-- A shared-arbitrator manager with total capacity 64 MiB and the initial
pool slice configured to totalCapacity/32 = 2 MiB. -/
def mgrSharedSlice : ManagerState :=
  mkManagerD
    { allocatorCapacity := 64 * 2 ^ 20, arbitratorCapacity := 64 * 2 ^ 20,
      arbitratorKind := .shared, memoryPoolInitialCapacity := 2 * 2 ^ 20 }

/-- The manager of test `addPoolWithArbitrator`: shared arbitrator, 32 GiB
capacity, initial pool slice totalCapacity/32 = 1 GiB. -/
def mgrShared32 : ManagerState :=
  mkManagerD
    { allocatorCapacity := 32 * 2 ^ 30, arbitratorCapacity := 32 * 2 ^ 30,
      arbitratorKind := .shared, memoryPoolInitialCapacity := 2 ^ 30 }

/-- The options of test `createWithCustomArbitrator`: allocator capacity
8 MiB, arbitrator capacity configured (and overridden) at 256 MiB. -/
def optsCustomArb : MgrOptions :=
  { allocatorCapacity := 8 * 2 ^ 20, arbitratorCapacity := 256 * 2 ^ 20 }

/-- The allocation state of test `disableMemoryPoolTracking`, Noop
iteration, leaf `leaf_0` under root `root_0` (35 MiB capacity) with a
64 MiB allocator. -/
def stateLeaf0 : MemState :=
  { alignment := 64, allocCapacity := 64 * 2 ^ 20, allocatedBytes := 0,
    arbKind := .noop, arbFree := 0,
    pool :=
      { capacity := 35 * 2 ^ 20, maxCapacity := 35 * 2 ^ 20,
        reservation := 0, usage := 0, peak := 0 } }

/-- The scenario of test `quotaEnforcement`, row
(2 MiB quota, 1 MiB small allocation, 512 contiguous pages): build the
manager with allocator and arbitrator capacity 2 MiB, add a leaf pool,
allocate 1 MiB, then request 512 contiguous pages (2 MiB). -/
def scenario7 : Except MemErr (AllocOutcome × AllocOutcome) :=
  (mkManager
      { alignment := 32, allocatorCapacity := 2 * 2 ^ 20,
        arbitratorCapacity := 2 * 2 ^ 20 }).bind
    (fun s =>
      (addLeafPool s "quotaEnforcement").map
        (fun x =>
          let m := leafMemState x.2 x.1
          let o1 := perform m (.bytes (2 ^ 20))
          let o2 := perform o1.state (.contiguous 512)
          (o1, o2)))

/-- Helper: a successful `addRootPool` call produces a root pool carrying
the manager alignment, the requested name and maxCapacity, registers it in
the live-pool registry exactly when tracking is enabled, and never touches
the growth or reclaim counters. -/
theorem addRootPool_fields (s : ManagerState) (name : String) (cap : Nat)
    (p : PoolInfo) (s2 : ManagerState)
    (h : addRootPool s name cap = .ok (p, s2)) :
    p.alignment = s.alignment ∧ p.name = name ∧ p.isRoot = true ∧
    p.maxCapacity = cap ∧
    s2.userPools = (if s.disableTracking then s.userPools else p :: s.userPools) ∧
    s2.growCalls = s.growCalls ∧ s2.reclaimCalls = s.reclaimCalls := by
  cases hark : s.arbKind with
  | noop =>
    simp only [addRootPool, hark] at h
    split at h
    · exact Except.noConfusion h
    · simp only [Except.ok.injEq, Prod.mk.injEq] at h
      obtain ⟨hp, hs2⟩ := h
      subst hp
      subst hs2
      exact ⟨rfl, rfl, rfl, rfl, rfl, rfl, rfl⟩
  | shared =>
    simp only [addRootPool, hark] at h
    split at h
    · exact Except.noConfusion h
    · split at h
      · exact Except.noConfusion h
      · simp only [Except.ok.injEq, Prod.mk.injEq] at h
        obtain ⟨hp, hs2⟩ := h
        subst hp
        subst hs2
        exact ⟨rfl, rfl, rfl, rfl, rfl, rfl, rfl⟩

/-- Helper: a successful `addLeafPool` call produces a leaf pool carrying
the manager alignment and unlimited capacity. -/
theorem addLeafPool_fields (s : ManagerState) (name : String)
    (p : PoolInfo) (s2 : ManagerState)
    (h : addLeafPool s name = .ok (p, s2)) :
    p.alignment = s.alignment ∧ p.name = name ∧ p.isRoot = false ∧
    p.capacity = kMaxMemory ∧ p.maxCapacity = kMaxMemory ∧
    s2.userPools = p :: s.userPools := by
  simp only [addLeafPool] at h
  split at h
  · exact Except.noConfusion h
  · simp only [Except.ok.injEq, Prod.mk.injEq] at h
    obtain ⟨hp, hs2⟩ := h
    subst hp
    subst hs2
    exact ⟨rfl, rfl, rfl, rfl, rfl, rfl⟩

/-- C8: the built-in system-pool reclaimer, for every input, reports the
reclaimableBytes capability as unsupported (false, zero bytes out),
reclaims zero bytes, and refuses abort with a descriptive (non-empty)
error. -/
theorem c8_sys_reclaimer (pool : LeafPool) (target maxWait : Nat) (cause : String) :
    sysReclaimableBytes pool = (false, 0) ∧
    sysReclaim pool target maxWait = 0 ∧
    sysAbort pool cause = .error "SysMemoryReclaimer::abort is not supported" ∧
    "SysMemoryReclaimer::abort is not supported" ≠ "" :=
  ⟨rfl, rfl, rfl, by decide⟩

/-- C10: for every manager construction, the arbitrator capacity is set to
the allocator capacity, whatever the separately configured arbitrator
capacity option says. -/
theorem c10_arb_capacity_override (o : MgrOptions) (s : ManagerState)
    (h : mkManager o = .ok s) :
    s.arbCapacity = o.allocatorCapacity ∧
    s.allocatorCapacity = o.allocatorCapacity := by
  unfold mkManager at h
  split at h
  · simp only [Except.ok.injEq] at h
    subst h
    exact ⟨rfl, rfl⟩
  · exact Except.noConfusion h

/-- Witness for C10 at the options of `createWithCustomArbitrator`, where
the configured arbitrator capacity (256 MiB) differs from the allocator
capacity (8 MiB). -/
theorem c10_witness :
    optsCustomArb.arbitratorCapacity ≠ optsCustomArb.allocatorCapacity ∧
    (mkManagerD optsCustomArb).arbCapacity = optsCustomArb.allocatorCapacity :=
  ⟨by decide,
    (c10_arb_capacity_override optsCustomArb (mkManagerD optsCustomArb) rfl).1⟩

/-- C7: with allocator and arbitrator capacity both 2 MiB, allocating 1 MiB
on a fresh leaf pool succeeds, and the subsequent contiguous request for
512 pages (2 MiB) fails with the allocator-level flavor of
CapacityExceeded. -/
theorem c7_quota_scenario :
    (scenario7.map fun x => (x.1.result, x.2.result)) =
      .ok (.ok (), .error .allocatorCapacityExceeded) ∧
    isCapacityExceeded .allocatorCapacityExceeded = true := by
  constructor
  · rfl
  · rfl

/-- C2 counterexample: a fresh default manager has exactly one live root
pool (the permanent system root) yet reports numPools() = 3, so numPools()
is not the live root-pool count. -/
theorem c2_cex :
    (mkManager {}).map numPools = .ok 3 ∧
    (mkManager {}).map liveRootPoolCount = .ok 1 ∧
    (3 : Nat) ≠ 1 :=
  ⟨rfl, rfl, by decide⟩

/-- C2 amended: numPools() equals the number of live manager-tracked user
pools — root and leaf alike, excluding root pools created while
disable-pool-tracking is set, which never enter the registry — plus the
fixed system-pool count of 3, not the live root-pool count; releasing the
last owning reference to a tracked pool removes it synchronously and
decrements numPools() by exactly one, while adding an untracked root pool
leaves numPools() unchanged. -/
theorem c2_num_pools (s : ManagerState) (p : PoolInfo) :
    numPools s = s.userPools.length + kSystemPoolCount ∧
    (p ∈ s.userPools →
      numPools (removePool s p.id) = numPools s - 1) ∧
    (s.disableTracking = true →
      ∀ name cap p2 s2, addRootPool s name cap = .ok (p2, s2) →
        numPools s2 = numPools s) := by
  refine ⟨rfl, ?_, ?_⟩
  · intro hmem
    have hpa : (fun q : PoolInfo => q.id == p.id) p = true := by simp
    have hsome : (s.userPools.find? (fun q => q.id == p.id)).isSome := by
      rw [List.find?_isSome]
      exact ⟨p, hmem, hpa⟩
    have hpos : 0 < s.userPools.length := List.length_pos_of_mem hmem
    unfold removePool
    cases hf : s.userPools.find? (fun q => q.id == p.id) with
    | none => rw [hf] at hsome; simp at hsome
    | some q =>
      simp only [numPools]
      have herase :
          (s.userPools.eraseP (fun q => q.id == p.id)).length =
            s.userPools.length - 1 :=
        List.length_eraseP_of_mem hmem hpa
      rw [herase]
      omega
  · intro htrack name cap p2 s2 h
    have hreg := (addRootPool_fields s name cap p2 s2 h).2.2.2.2.1
    rw [htrack] at hreg
    simp at hreg
    simp only [numPools, hreg]

/-- Witness for C2: on a fresh default (tracked) manager with one root pool
added, removing that pool takes numPools() from 4 back to 3; on the
tracking-disabled manager of `disableMemoryPoolTracking`, adding root_0
leaves numPools() unchanged at 3. -/
theorem c2_witness :
    (addRootPair mgrDefault "r" kMaxMemory).1 ∈
      (addRootPair mgrDefault "r" kMaxMemory).2.userPools ∧
    numPools
        (removePool (addRootPair mgrDefault "r" kMaxMemory).2
          (addRootPair mgrDefault "r" kMaxMemory).1.id) =
      numPools (addRootPair mgrDefault "r" kMaxMemory).2 - 1 ∧
    mgrNoTrackNoop.disableTracking = true ∧
    numPools (addRootPair mgrNoTrackNoop "root_0" (35 * 2 ^ 20)).2 =
      numPools mgrNoTrackNoop :=
  ⟨by decide,
    (c2_num_pools (addRootPair mgrDefault "r" kMaxMemory).2
        (addRootPair mgrDefault "r" kMaxMemory).1).2.1 (by decide),
    by decide,
    (c2_num_pools mgrNoTrackNoop fallbackPool).2.2 rfl "root_0" (35 * 2 ^ 20)
      (addRootPair mgrNoTrackNoop "root_0" (35 * 2 ^ 20)).1
      (addRootPair mgrNoTrackNoop "root_0" (35 * 2 ^ 20)).2 rfl⟩

/-- C3 counterexample: the alignment value kMinAlignment - 1 = 15 is
neither 0 nor a power of two in [kMinAlignment, kMaxAlignment], yet manager
construction succeeds with it (adopting alignment 16), exactly as test
`alignmentOptionCheck` asserts; so such values do not all fail
construction. -/
theorem c3_cex :
    specValidAlignment (kMinAlignment - 1) = false ∧
    (mkManager { alignment := kMinAlignment - 1 }).map ManagerState.alignment =
      .ok kMinAlignment :=
  ⟨by decide, rfl⟩

/-- C3 amended: construction succeeds exactly when the configured alignment
clamped up to kMinAlignment is a power of two not exceeding kMaxAlignment
(so values below kMinAlignment are accepted and clamped, not rejected); for
every accepted value a the manager reports alignment max(a, kMinAlignment)
and every pool it creates reports that same alignment. -/
theorem c3_alignment (a : Nat) :
    (codeValidAlignment a = false →
      mkManager { alignment := a } = .error .invalidAlignment) ∧
    (∀ s, mkManager { alignment := a } = .ok s →
      codeValidAlignment a = true ∧
      s.alignment = max a kMinAlignment ∧
      (∀ name cap p s2, addRootPool s name cap = .ok (p, s2) →
        p.alignment = max a kMinAlignment) ∧
      (∀ name p s2, addLeafPool s name = .ok (p, s2) →
        p.alignment = max a kMinAlignment)) := by
  constructor
  · intro hv
    unfold mkManager
    rw [hv]
    simp
  · intro s hs
    unfold mkManager at hs
    cases hv : codeValidAlignment a with
    | false => rw [hv] at hs; simp at hs
    | true =>
      rw [hv] at hs
      simp at hs
      have halign : s.alignment = max a kMinAlignment := by
        rw [← hs]
        rfl
      refine ⟨rfl, halign, ?_, ?_⟩
      · intro name cap p s2 h
        rw [(addRootPool_fields s name cap p s2 h).1]
        exact halign
      · intro name p s2 h
        rw [(addLeafPool_fields s name p s2 h).1]
        exact halign

/-- Witness for C3: alignment 17 fails construction, alignment 32 is
accepted and adopted as max(32, kMinAlignment). -/
theorem c3_witness :
    mkManager { alignment := 17 } = .error .invalidAlignment ∧
    (mkManagerD { alignment := 32 }).alignment = max 32 kMinAlignment :=
  ⟨(c3_alignment 17).1 (by decide),
    ((c3_alignment 32).2 (mkManagerD { alignment := 32 }) rfl).2.1⟩

/-- C6: under the Noop arbitrator, every successfully added root pool is
unconditionally granted its maxCapacity as its capacity — in particular
maxCapacity UNLIMITED yields capacity UNLIMITED — with no arbitrator growth
call and no reclaim. -/
theorem c6_noop_grants_max (s : ManagerState) (name : String) (maxCap : Nat)
    (p : PoolInfo) (s2 : ManagerState)
    (hk : s.arbKind = ArbKind.noop)
    (h : addRootPool s name maxCap = .ok (p, s2)) :
    p.capacity = maxCap ∧ p.maxCapacity = maxCap ∧
    s2.growCalls = s.growCalls ∧ s2.reclaimCalls = s.reclaimCalls := by
  unfold addRootPool at h
  rw [hk] at h
  split at h
  · exact Except.noConfusion h
  · simp only [Except.ok.injEq, Prod.mk.injEq] at h
    obtain ⟨hp, hs2⟩ := h
    subst hp
    subst hs2
    exact ⟨rfl, rfl, rfl, rfl⟩

/-- Witness for C6 at a fresh default (Noop) manager: addRootPool with
maxCapacity kMaxMemory yields capacity kMaxMemory and leaves the growth and
reclaim counters untouched. -/
theorem c6_witness :
    (addRootPair mgrDefault "p" kMaxMemory).1.capacity = kMaxMemory ∧
    (addRootPair mgrDefault "p" kMaxMemory).2.growCalls =
      mgrDefault.growCalls :=
  ⟨(c6_noop_grants_max mgrDefault "p" kMaxMemory
      (addRootPair mgrDefault "p" kMaxMemory).1
      (addRootPair mgrDefault "p" kMaxMemory).2 rfl rfl).1,
    (c6_noop_grants_max mgrDefault "p" kMaxMemory
      (addRootPair mgrDefault "p" kMaxMemory).1
      (addRootPair mgrDefault "p" kMaxMemory).2 rfl rfl).2.2.1⟩

/-- C5 counterexample: with the shared arbitrator configured at total
capacity 64 MiB and initial slice 64 MiB / 32 = 2 MiB, a root pool added
with maxCapacity 1 MiB receives capacity 1 MiB, not the slice — so not
every newly added root pool has capacity equal to the slice. -/
theorem c5_cex :
    mgrSharedSlice.initialPoolCapacity = mgrSharedSlice.arbCapacity / 32 ∧
    (addRootPool mgrSharedSlice "p" (2 ^ 20)).map (fun x => x.1.capacity) =
      .ok (2 ^ 20) ∧
    (2 ^ 20 : Nat) ≠ mgrSharedSlice.arbCapacity / 32 :=
  ⟨by decide, rfl, by decide⟩

/-- C5 amended: under the Shared arbitrator, a newly added root pool has
maxCapacity() equal to the value passed to addRootPool and capacity() equal
to min(initial slice, maxCapacity, free arbitrator capacity) — hence equal
to the configured slice totalCapacity/32 whenever that slice is at most
both the pool maxCapacity and the free capacity. -/
theorem c5_shared_initial_capacity (s : ManagerState) (name : String)
    (maxCap : Nat) (p : PoolInfo) (s2 : ManagerState)
    (hk : s.arbKind = ArbKind.shared)
    (h : addRootPool s name maxCap = .ok (p, s2)) :
    p.capacity = min maxCap (min s.initialPoolCapacity s.arbFree) ∧
    p.maxCapacity = maxCap ∧
    (s.initialPoolCapacity ≤ maxCap → s.initialPoolCapacity ≤ s.arbFree →
      p.capacity = s.initialPoolCapacity) := by
  simp only [addRootPool, hk] at h
  split at h
  · exact Except.noConfusion h
  · split at h
    · exact Except.noConfusion h
    · simp only [Except.ok.injEq, Prod.mk.injEq] at h
      obtain ⟨hp, _⟩ := h
      subst hp
      refine ⟨rfl, rfl, ?_⟩
      intro h1 h2
      simp only [sharedGrant]
      omega

/-- Witness for C5 at the `addPoolWithArbitrator` scenario: total capacity
32 GiB, slice 1 GiB = total/32, addRootPool with maxCapacity kMaxMemory
yields capacity exactly the slice and maxCapacity kMaxMemory. -/
theorem c5_witness :
    mgrShared32.initialPoolCapacity = mgrShared32.arbCapacity / 32 ∧
    (addRootPair mgrShared32 "addPoolWithArbitrator" kMaxMemory).1.capacity =
      mgrShared32.initialPoolCapacity ∧
    (addRootPair mgrShared32 "addPoolWithArbitrator" kMaxMemory).1.maxCapacity =
      kMaxMemory :=
  ⟨by decide,
    (c5_shared_initial_capacity mgrShared32 "addPoolWithArbitrator" kMaxMemory
        (addRootPair mgrShared32 "addPoolWithArbitrator" kMaxMemory).1
        (addRootPair mgrShared32 "addPoolWithArbitrator" kMaxMemory).2
        rfl rfl).2.2 (by decide) (by decide),
    (c5_shared_initial_capacity mgrShared32 "addPoolWithArbitrator" kMaxMemory
        (addRootPair mgrShared32 "addPoolWithArbitrator" kMaxMemory).1
        (addRootPair mgrShared32 "addPoolWithArbitrator" kMaxMemory).2
        rfl rfl).2.1⟩

/-- C4: adding a root pool under the name of a currently live root pool
fails the offending call when pool tracking is enabled; with tracking
disabled the manager-level check is skipped (the call succeeds under the
Noop arbitrator), while the Shared arbitrator may still independently
reject a name it has registered; and a call with a fresh name on the same
manager state still succeeds, so only the offending call is affected. -/
theorem c4_duplicate_root_names (s : ManagerState) (name fresh : String)
    (cap cap2 : Nat) :
    (s.disableTracking = false → name ∈ rootNames s →
      addRootPool s name cap = .error .duplicatePoolName) ∧
    (s.disableTracking = true → s.arbKind = ArbKind.noop →
      exceptOk (addRootPool s name cap) = true) ∧
    (s.disableTracking = true → s.arbKind = ArbKind.shared →
      fresh ∈ s.arbNames →
      addRootPool s fresh cap = .error .duplicateArbPool) ∧
    (fresh ∉ rootNames s → fresh ∉ s.arbNames →
      exceptOk (addRootPool s fresh cap2) = true) := by
  refine ⟨?_, ?_, ?_, ?_⟩
  · intro htrack hmem
    simp only [addRootPool, htrack, Bool.not_false, Bool.true_and]
    rw [if_pos]
    exact List.elem_iff.mpr hmem
  · intro htrack hk
    simp only [addRootPool, htrack, hk, Bool.not_true, Bool.false_and,
      Bool.false_eq_true, if_false]
    rfl
  · intro htrack hk hmem
    simp only [addRootPool, htrack, hk, Bool.not_true, Bool.false_and,
      Bool.false_eq_true, if_false]
    rw [if_pos]
    exact List.elem_iff.mpr hmem
  · intro hroot harb
    have hc1 : (rootNames s).contains fresh = false := by
      rw [Bool.eq_false_iff]
      intro hc
      exact hroot (List.elem_iff.mp hc)
    have hc2 : s.arbNames.contains fresh = false := by
      rw [Bool.eq_false_iff]
      intro hc
      exact harb (List.elem_iff.mp hc)
    cases hark : s.arbKind with
    | noop =>
      simp only [addRootPool, hark, hc1, Bool.and_false, Bool.false_eq_true,
        if_false]
      rfl
    | shared =>
      simp only [addRootPool, hark, hc1, hc2, Bool.and_false,
        Bool.false_eq_true, if_false]
      rfl

/-- Witness for C4: a duplicate of the live root `duplicateRootPool` fails
on a default (tracking-enabled) manager; `root_0` can be added twice when
tracking is disabled under the Noop arbitrator; the Shared arbitrator
rejects the `root_0` duplicate even with tracking disabled; and a fresh
name still succeeds on the tracking-enabled manager. -/
theorem c4_witness :
    addRootPool (addRootD mgrDefault "duplicateRootPool" kMaxMemory)
        "duplicateRootPool" kMaxMemory = .error .duplicatePoolName ∧
    exceptOk
        (addRootPool (addRootD mgrNoTrackNoop "root_0" (35 * 2 ^ 20))
          "root_0" (35 * 2 ^ 20)) = true ∧
    addRootPool (addRootD mgrNoTrackShared "root_0" (35 * 2 ^ 20))
        "root_0" (35 * 2 ^ 20) = .error .duplicateArbPool ∧
    exceptOk
        (addRootPool (addRootD mgrDefault "duplicateRootPool" kMaxMemory)
          "root_1" kMaxMemory) = true :=
  ⟨(c4_duplicate_root_names
      (addRootD mgrDefault "duplicateRootPool" kMaxMemory)
      "duplicateRootPool" "x" kMaxMemory kMaxMemory).1 rfl (by decide),
    (c4_duplicate_root_names
      (addRootD mgrNoTrackNoop "root_0" (35 * 2 ^ 20))
      "root_0" "x" (35 * 2 ^ 20) (35 * 2 ^ 20)).2.1 rfl rfl,
    (c4_duplicate_root_names
      (addRootD mgrNoTrackShared "root_0" (35 * 2 ^ 20))
      "x" "root_0" (35 * 2 ^ 20) (35 * 2 ^ 20)).2.2.1 rfl rfl (by decide),
    (c4_duplicate_root_names
      (addRootD mgrDefault "duplicateRootPool" kMaxMemory)
      "x" "root_1" kMaxMemory kMaxMemory).2.2.2 (by decide) (by decide)⟩

/-- C9: the global singleton lifecycle — the first initialization call sets
the process-wide instance and every later one fails leaving the existing
instance in place; the accessor returns the current instance; the test-only
force set unconditionally replaces the instance with a fresh one; and the
lazy-default accessor creates a default-configured instance on first use
and returns that same instance, with unchanged state, on every subsequent
call. -/
theorem c9_global_lifecycle (g : GlobalSlot) (o o2 : MgrOptions)
    (hwf : g.wf) :
    (g.inst = none →
      initMemoryManager g o =
        .ok { inst := some (g.nextId, o), nextId := g.nextId + 1 }) ∧
    (∀ i oo, g.inst = some (i, oo) →
      initMemoryManager g o2 = .error .alreadySet ∧
      memoryManagerAcc g = some i) ∧
    (memoryManagerAcc (testingSetInstance g o) = some g.nextId ∧
      (∀ i, memoryManagerAcc g = some i → g.nextId ≠ i)) ∧
    (g.inst = none →
      (lazyDefaultManager g).2.inst =
        some ((lazyDefaultManager g).1, {}) ∧
      lazyDefaultManager (lazyDefaultManager g).2 =
        ((lazyDefaultManager g).1, (lazyDefaultManager g).2)) := by
  refine ⟨?_, ?_, ⟨?_, ?_⟩, ?_⟩
  · intro hnone
    simp [initMemoryManager, hnone]
  · intro i oo hsome
    exact ⟨by simp [initMemoryManager, hsome],
      by simp [memoryManagerAcc, hsome]⟩
  · simp [memoryManagerAcc, testingSetInstance]
  · intro i hacc
    simp only [memoryManagerAcc, Option.map_eq_some'] at hacc
    obtain ⟨⟨j, oo⟩, hj, hji⟩ := hacc
    have hlt := hwf j oo hj
    simp at hji
    omega
  · intro hnone
    simp [lazyDefaultManager, hnone]

/-- Witness for C9 starting from the empty global slot: initialization
succeeds once and fails the second time. -/
theorem c9_witness :
    initMemoryManager { inst := none, nextId := 0 } {} =
      .ok { inst := some (0, {}), nextId := 1 } ∧
    initMemoryManager { inst := some (0, {}), nextId := 1 } {} =
      .error .alreadySet :=
  ⟨(c9_global_lifecycle { inst := none, nextId := 0 } {} {}
      (by intro i o h; simp at h)).1 rfl,
    ((c9_global_lifecycle { inst := some (0, {}), nextId := 1 } {} {}
      (by intro i o h; have h2 : some ((0 : Nat), ({} : MgrOptions)) = some (i, o) := h; injection h2 with h3; injection h3 with h4 h5; show i < 1; omega)).2.1 0 {} rfl).1⟩

/-- Helper: under the capacity-within-maxCapacity invariant, arbitration
never shrinks a pool below its already granted capacity. -/
theorem growTarget_ge (s : MemState) (hcm : s.pool.capacity ≤ s.pool.maxCapacity) :
    s.pool.capacity ≤ growTarget s := by
  unfold growTarget
  cases hk : s.arbKind with
  | noop => exact Nat.le_refl _
  | shared =>
    show s.pool.capacity ≤ min s.pool.maxCapacity (s.pool.capacity + s.arbFree)
    omega

/-- The state after a fast-path reservation of a fitting request. -/
def fastReserve (s : MemState) (size : Nat) : MemState :=
  { s with pool := { s.pool with reservation := s.pool.reservation + size } }

/-- The state after a reservation satisfied through capacity growth. -/
def growReserve (s : MemState) (size : Nat) : MemState :=
  { s with
    arbFree := s.arbFree - (s.pool.reservation + size - s.pool.capacity),
    pool := { s.pool with
              capacity := s.pool.reservation + size,
              reservation := s.pool.reservation + size } }

/-- Helper: a sized request that exceeds what arbitration can grant fails
with one of the two CapacityExceeded flavors and leaves the reservation,
usage, peak and allocator counters untouched. -/
theorem performSized_fail (s : MemState) (size : Nat) (hwf : s.wf)
    (hex : growTarget s < s.pool.reservation + size ∨
      s.allocCapacity < s.allocatedBytes + size) :
    ((performSized s size).result = .error .poolCapacityExceeded ∨
      (performSized s size).result = .error .allocatorCapacityExceeded) ∧
    (performSized s size).state.pool.reservation = s.pool.reservation ∧
    (performSized s size).state.pool.usage = s.pool.usage ∧
    (performSized s size).state.pool.peak = s.pool.peak ∧
    (performSized s size).state.allocatedBytes = s.allocatedBytes := by
  obtain ⟨hrc, hcm, hac⟩ := hwf
  have hct : s.pool.capacity ≤ growTarget s := growTarget_ge s hcm
  have hpos : size ≠ 0 := by
    rcases hex with h | h <;> omega
  by_cases h1 : s.pool.reservation + size ≤ s.pool.capacity
  · have hex2 : s.allocCapacity < s.allocatedBytes + size := by
      rcases hex with h | h
      · omega
      · exact h
    have hres : reserveStep s size = .ok (fastReserve s size) := by
      unfold reserveStep
      rw [if_pos h1]
      rfl
    have hnle : ¬((fastReserve s size).allocatedBytes + size ≤
        (fastReserve s size).allocCapacity) := by
      show ¬(s.allocatedBytes + size ≤ s.allocCapacity)
      omega
    have halloc : allocStep (fastReserve s size) size =
        .error .allocatorCapacityExceeded := by
      unfold allocStep
      rw [if_neg hnle]
    have hperf : performSized s size =
        { result := .error .allocatorCapacityExceeded,
          state := unreserve (fastReserve s size) size } := by
      simp only [performSized, if_neg hpos, hres, halloc]
    rw [hperf]
    refine ⟨Or.inr rfl, ?_, rfl, rfl, rfl⟩
    show s.pool.reservation + size - size = s.pool.reservation
    omega
  · by_cases h2 : s.pool.reservation + size ≤ growTarget s
    · have hex2 : s.allocCapacity < s.allocatedBytes + size := by
        rcases hex with h | h
        · omega
        · exact h
      have hres : reserveStep s size = .ok (growReserve s size) := by
        unfold reserveStep
        rw [if_neg h1, if_pos h2]
        rfl
      have hnle : ¬((growReserve s size).allocatedBytes + size ≤
          (growReserve s size).allocCapacity) := by
        show ¬(s.allocatedBytes + size ≤ s.allocCapacity)
        omega
      have halloc : allocStep (growReserve s size) size =
          .error .allocatorCapacityExceeded := by
        unfold allocStep
        rw [if_neg hnle]
      have hperf : performSized s size =
          { result := .error .allocatorCapacityExceeded,
            state := unreserve (growReserve s size) size } := by
        simp only [performSized, if_neg hpos, hres, halloc]
      rw [hperf]
      refine ⟨Or.inr rfl, ?_, rfl, rfl, rfl⟩
      show s.pool.reservation + size - size = s.pool.reservation
      omega
    · have hres : reserveStep s size = .error .poolCapacityExceeded := by
        unfold reserveStep
        rw [if_neg h1, if_neg h2]
      have hperf : performSized s size =
          { result := .error .poolCapacityExceeded, state := s } := by
        simp only [performSized, if_neg hpos, hres]
      rw [hperf]
      exact ⟨Or.inl rfl, rfl, rfl, rfl, rfl⟩

/-- C1: for every leaf pool state and every allocation request — allocate,
allocateContiguous or allocateNonContiguous — whose size exceeds what
arbitration can grant, the call fails with CapacityExceeded in one of its
two distinguishable flavors (pool-level quota vs allocator-level global
limit) and leaves the reservation, usage, peak and allocator counters
unchanged: no partial allocation ever survives a failure. -/
theorem c1_capacity_exceeded_atomic (s : MemState) (req : Request)
    (hwf : s.wf) (hex : exceedsGrant s (requestBytes s req)) :
    ((perform s req).result = .error .poolCapacityExceeded ∨
      (perform s req).result = .error .allocatorCapacityExceeded) ∧
    isCapacityExceeded .poolCapacityExceeded = true ∧
    isCapacityExceeded .allocatorCapacityExceeded = true ∧
    (perform s req).state.pool.reservation = s.pool.reservation ∧
    (perform s req).state.pool.usage = s.pool.usage ∧
    (perform s req).state.pool.peak = s.pool.peak ∧
    (perform s req).state.allocatedBytes = s.allocatedBytes := by
  have h := performSized_fail s (requestBytes s req) hwf hex
  exact ⟨h.1, rfl, rfl, h.2.1, h.2.2.1, h.2.2.2.1, h.2.2.2.2⟩

/-- Witness for C1 at the `disableMemoryPoolTracking` leaf_0 scenario: a
38 MiB byte request on a pool capped at 35 MiB fails with the pool-level
CapacityExceeded flavor, leaving the counters at zero. -/
theorem c1_witness :
    stateLeaf0.wf ∧
    exceedsGrant stateLeaf0 (requestBytes stateLeaf0 (.bytes (38 * 2 ^ 20))) ∧
    ((perform stateLeaf0 (.bytes (38 * 2 ^ 20))).result =
        .error .poolCapacityExceeded ∨
      (perform stateLeaf0 (.bytes (38 * 2 ^ 20))).result =
        .error .allocatorCapacityExceeded) ∧
    (perform stateLeaf0 (.bytes (38 * 2 ^ 20))).state.pool.reservation =
      stateLeaf0.pool.reservation :=
  ⟨by decide, by decide,
    (c1_capacity_exceeded_atomic stateLeaf0 (.bytes (38 * 2 ^ 20))
        (by decide) (by decide)).1,
    (c1_capacity_exceeded_atomic stateLeaf0 (.bytes (38 * 2 ^ 20))
        (by decide) (by decide)).2.2.2.1⟩

end Velox
